import Mathlib

/-!
# Tachyonic Engine — shallow embedding

A shallow embedding of `tachyonic.js`, the hand-rolled 3D wireframe renderer
("Tachyonic Engine") of the portfolio repository, together with proofs about
its camera / zoom / mode state machine, its triple-click activation logic and
its projection pipeline.

Modelling conventions:
* JavaScript numbers are modelled as exact rationals (`ℚ`).  Every numeric
  literal of the source is carried over exactly (`0.04 = 1/25`,
  `MAX_ZOOM = 43/10`, `0.05 = 1/20`, …).
* The transcendental library functions `Math.cos`, `Math.sin`, `Math.pow`
  and the constant `Math.PI` appear only in the *drawing geometry*, never in
  the state machine.  They are supplied through an `Oracle` record of
  uninterpreted rational functions, so every definition stays computable.
* The mutable module-level variables of the IIFE (`isExpanded`, `camYaw`, …,
  plus the `clickCount`/`clickTimer` closure of `init`) are gathered into a
  `State` record; every event handler and the render loop become explicit
  `State → State` functions.
* `requestAnimationFrame` scheduling is modelled by the Boolean field
  `animPending`; listener (de)attachment by `listenersAttached` together
  with the counter `attachCount` (how many times the listener set was
  attached).  `setTimeout`-based click-window expiry is modelled lazily by
  storing the pending expiry time: the only reader of `clickCount` is the
  click handler itself, so resolving the timer at the next click is
  observationally equivalent.
* Canvas drawing calls are recorded as a list of `Cmd` values carrying the
  geometric payload of each primitive (styling — colors, alphas, line
  widths, shadows, gradient colour stops — is not modelled).
-/

namespace Tachyonic

/-- `const MAX_ZOOM = 4.3` (tachyonic.js line 40). -/
def MAX_ZOOM : ℚ := 43/10

/-- The mutable state of the engine: the module-level variables of the IIFE
in `tachyonic.js` plus the `clickCount` / `clickTimer` closure created by
`init`, plus observational counters (`enterCalls`, `sensingCount`,
`onExitRuns`) recording how many times the click handler invoked `enter()`,
how many times the two-click "sensing" CSS pulse fired, and how many times
the exit callback ran. -/
@[ext]
structure State where
  /-- `isExpanded` — whether a session is active. -/
  isExpanded : Bool
  /-- `camYaw` — current camera yaw. -/
  camYaw : ℚ
  /-- `camPitch` — current camera pitch. -/
  camPitch : ℚ
  /-- `targetYaw` — target camera yaw. -/
  targetYaw : ℚ
  /-- `targetPitch` — target camera pitch. -/
  targetPitch : ℚ
  /-- `camZoom` — current (eased) zoom. -/
  camZoom : ℚ
  /-- `targetZoom` — target zoom. -/
  targetZoom : ℚ
  /-- `hyperTime` — internal clock. -/
  hyperTime : ℚ
  /-- `entryAlpha` — session fade-in progress. -/
  entryAlpha : ℚ
  /-- `inEventHorizon` — mode flag (`false` = Void, `true` = EventHorizon). -/
  inEventHorizon : Bool
  /-- `horizonAlpha` — EventHorizon fade-in progress. -/
  horizonAlpha : ℚ
  /-- `hyperCanvas.width`. -/
  width : ℚ
  /-- `hyperCanvas.height`. -/
  height : ℚ
  /-- whether a `requestAnimationFrame` callback is scheduled (`hyperAnimId`). -/
  animPending : Bool
  /-- whether the mousemove/keydown/wheel/resize listeners are attached. -/
  listenersAttached : Bool
  /-- how many times the listener set has been attached (observational). -/
  attachCount : Nat
  /-- `clickCount` — the triple-click counter closure variable of `init`. -/
  clickCount : Nat
  /-- expiry instant of the pending `clickTimer` timeout, if any. -/
  clickTimerExpiry : Option ℚ
  /-- how many times the click handler has invoked `enter()` (observational). -/
  enterCalls : Nat
  /-- how many times the two-click `cube-sensing` pulse fired (observational). -/
  sensingCount : Nat
  /-- whether an `onExit` callback was supplied to `init`. -/
  hasOnExitCallback : Bool
  /-- how many times the `onExit` callback has run (observational). -/
  onExitRuns : Nat
deriving DecidableEq

/-- Oracle for the transcendental library functions used by the drawing
geometry: uninterpreted rational stand-ins for `Math.cos`, `Math.sin`,
`Math.pow` and the constant `Math.PI`.  No state-machine arithmetic depends
on them. -/
structure Oracle where
  cos : ℚ → ℚ
  sin : ℚ → ℚ
  pow : ℚ → ℚ → ℚ
  pi : ℚ

/-- A world-space or screen-space point `[x, y, z]`. -/
abbrev Vec3 := ℚ × ℚ × ℚ

/-- `rotY(p, a)` (lines 55-58): rotation about the vertical axis; `c`/`s`
stand for `Math.cos(a)` / `Math.sin(a)`. -/
def rotY (o : Oracle) (p : Vec3) (a : ℚ) : Vec3 :=
  let c := o.cos a
  let s := o.sin a
  (p.1 * c - p.2.2 * s, p.2.1, p.1 * s + p.2.2 * c)

/-- `rotX(p, a)` (lines 60-63). -/
def rotX (o : Oracle) (p : Vec3) (a : ℚ) : Vec3 :=
  let c := o.cos a
  let s := o.sin a
  (p.1, p.2.1 * c - p.2.2 * s, p.2.1 * s + p.2.2 * c)

/-- `proj(p, w, h)` (lines 65-70): perspective division with the
zoom-adjusted depth `z = p[2] + 5 - camZoom`; returns `null` (here `none`)
when `z <= 0.1`. -/
def proj (camZoom : ℚ) (p : Vec3) (w h : ℚ) : Option Vec3 :=
  let z := p.2.2 + 5 - camZoom
  if z ≤ 1/10 then none
  else
    let fov : ℚ := 600
    some (w/2 + (p.1 * fov) / z, h/2 + (p.2.1 * fov) / z, z)

/-- `xform(p, w, h)` (lines 72-74). -/
def xform (o : Oracle) (s : State) (p : Vec3) (w h : ℚ) : Option Vec3 :=
  proj s.camZoom (rotX o (rotY o p (-s.camYaw)) (-s.camPitch)) w h

/-- `const S = 3.5` — outer cube half-size (line 81). -/
def S : ℚ := 7/2

/-- `outerV` (lines 82-85). -/
def outerV : List Vec3 :=
  [(-S, -S, -S), (S, -S, -S), (S, S, -S), (-S, S, -S),
   (-S, -S, S), (S, -S, S), (S, S, S), (-S, S, S)]

/-- `const s2 = 1.0` — inner cube half-size (line 87). -/
def s2 : ℚ := 1

/-- `innerV` (lines 88-91). -/
def innerV : List Vec3 :=
  [(-s2, -s2, -s2), (s2, -s2, -s2), (s2, s2, -s2), (-s2, s2, -s2),
   (-s2, -s2, s2), (s2, -s2, s2), (s2, s2, s2), (-s2, s2, s2)]

/-- `edges` (lines 93-97). -/
def edges : List (Nat × Nat) :=
  [(0, 1), (1, 2), (2, 3), (3, 0),
   (4, 5), (5, 6), (6, 7), (7, 4),
   (0, 4), (1, 5), (2, 6), (3, 7)]

/-- A recorded canvas drawing primitive (geometric payload only; stroke and
fill styling is not modelled).  `seg` records a `moveTo`/`lineTo`/`stroke`
line, `rect` a `fillRect`, `ellipse` an `ellipse` path, `arc` an `arc`
path. -/
inductive Cmd where
  | seg (x1 y1 x2 y2 : ℚ)
  | rect (x y w h : ℚ)
  | ellipse (cx cy rx ry : ℚ)
  | arc (cx cy r : ℚ)
deriving DecidableEq

/-- JavaScript's `%` remainder, for the nonnegative operands it is applied
to in this file (where truncated and floored division agree). -/
def qmod (a b : ℚ) : ℚ := a - b * (⌊a / b⌋ : ℤ)

/-- `drawGrid(ctx, w, h)` (lines 104-119): the floor grid; each of the 13
offsets yields one line per direction when both endpoints survive
projection. -/
def drawGrid (o : Oracle) (st : State) (w h : ℚ) : List Cmd :=
  let gridY := S * (19/20)
  let gridLines : ℕ := 12
  let step := S * 2 / (gridLines : ℚ)
  (List.range (gridLines + 1)).flatMap fun i =>
    let offset := -S + (i : ℚ) * step
    let a1 := proj st.camZoom (rotX o (rotY o (offset, gridY, -S) (-st.camYaw)) (-st.camPitch)) w h
    let a2 := proj st.camZoom (rotX o (rotY o (offset, gridY, S) (-st.camYaw)) (-st.camPitch)) w h
    let b1 := proj st.camZoom (rotX o (rotY o (-S, gridY, offset) (-st.camYaw)) (-st.camPitch)) w h
    let b2 := proj st.camZoom (rotX o (rotY o (S, gridY, offset) (-st.camYaw)) (-st.camPitch)) w h
    (match a1, a2 with
     | some p, some q => [Cmd.seg p.1 p.2.1 q.1 q.2.1]
     | _, _ => []) ++
    (match b1, b2 with
     | some p, some q => [Cmd.seg p.1 p.2.1 q.1 q.2.1]
     | _, _ => [])

/-- `drawScanlines(ctx, w, h)` (lines 121-126): one 1-pixel-high `fillRect`
every 4 pixels while `y < h`. -/
def drawScanlines (w h : ℚ) : List Cmd :=
  (List.range (⌈h / 4⌉.toNat)).map fun k => Cmd.rect 0 (4 * (k : ℚ)) w 1

/-- The default vertex used for out-of-range geometry indices (never reached
by the source's index sets). -/
def vzero : Vec3 := (0, 0, 0)

/-- One iteration of the edge loops (lines 321-331 / 343-353): project both
endpoints; if either is culled (`null`), draw nothing for this edge. -/
def edgeSeg (xf : Vec3 → Option Vec3) (vs : List Vec3) (e : Nat × Nat) : Option Cmd :=
  match xf (vs.getD e.1 vzero), xf (vs.getD e.2 vzero) with
  | some pa, some pb => some (Cmd.seg pa.1 pa.2.1 pb.1 pb.2.1)
  | _, _ => none

/-- The `edges.forEach` wireframe loops (lines 321-331 / 343-353). -/
def drawEdges (xf : Vec3 → Option Vec3) (vs : List Vec3) (es : List (Nat × Nat)) : List Cmd :=
  es.filterMap (edgeSeg xf vs)

/-- The outer→inner hyper-connection loop (lines 357-367). -/
def connectionCmds (xf : Vec3 → Option Vec3) (rotInner : List Vec3) : List Cmd :=
  (List.range 8).filterMap fun i =>
    match xf (outerV.getD i vzero), xf (rotInner.getD i vzero) with
    | some pa, some pb => some (Cmd.seg pa.1 pa.2.1 pb.1 pb.2.1)
    | _, _ => none

/-- `sphereRadius = 0.45` (line 370). -/
def sphereRadius : ℚ := 9/20

/-- `sphereRings = 12` (line 371). -/
def sphereRings : ℕ := 12

/-- `sphereSegments = 16` (line 372). -/
def sphereSegments : ℕ := 16

/-- The `prevP` chaining pattern of the sphere loops (lines 385-401 and
407-425): draw a segment between each pair of consecutive successfully
projected points; any `null` projection breaks the chain. -/
def chainSegs (pts : List (Option Vec3)) : List Cmd :=
  (pts.foldl (fun (acc : List Cmd × Option Vec3) sp =>
    match sp, acc.2 with
    | some p, some q => (acc.1 ++ [Cmd.seg q.1 q.2.1 p.1 p.2.1], some p)
    | _, _ => (acc.1, sp)) ([], none)).1

/-- Latitude rings of the core sphere (lines 381-402). -/
def sphereRingCmds (o : Oracle) (st : State) (w h : ℚ) : List Cmd :=
  let sphereRotA := st.hyperTime * (1/4)
  let sphereRotB := st.hyperTime * (3/20)
  ((List.range (sphereRings - 1)).map (fun k => (k + 1 : ℕ))).flatMap fun ring =>
    let phi := ((ring : ℚ) / (sphereRings : ℚ)) * o.pi
    let y := o.cos phi * sphereRadius
    let r := o.sin phi * sphereRadius
    chainSegs ((List.range (sphereSegments + 1)).map fun seg =>
      let theta := ((seg : ℚ) / (sphereSegments : ℚ)) * o.pi * 2
      let pt : Vec3 := (o.cos theta * r, y, o.sin theta * r)
      let pt := rotX o (rotY o pt sphereRotA) sphereRotB
      xform o st pt w h)

/-- Longitude lines of the core sphere (lines 405-426). -/
def sphereLongCmds (o : Oracle) (st : State) (w h : ℚ) : List Cmd :=
  let sphereRotA := st.hyperTime * (1/4)
  let sphereRotB := st.hyperTime * (3/20)
  (List.range sphereSegments).flatMap fun seg =>
    let theta := ((seg : ℚ) / (sphereSegments : ℚ)) * o.pi * 2
    chainSegs ((List.range (sphereRings + 1)).map fun ring =>
      let phi := ((ring : ℚ) / (sphereRings : ℚ)) * o.pi
      let y := o.cos phi * sphereRadius
      let r := o.sin phi * sphereRadius
      let pt : Vec3 := (o.cos theta * r, y, o.sin theta * r)
      let pt := rotX o (rotY o pt sphereRotA) sphereRotB
      xform o st pt w h)

/-- The Void-scene drawing of one `renderLoop` frame (lines 299-444):
background fill, vignette fill, floor grid, outer cube wireframe, rotating
inner cube wireframe, eight hyper-connections, sphere latitude rings,
sphere longitude lines, scanlines, crosshair (two strokes) and center
dot. -/
def voidScene (o : Oracle) (st : State) (w h : ℚ) : List Cmd :=
  let ia := st.hyperTime * (2/5)
  let rotInner := innerV.map fun v => rotX o (rotY o v ia) (ia * (3/5))
  [Cmd.rect 0 0 w h, Cmd.rect 0 0 w h] ++
  drawGrid o st w h ++
  drawEdges (fun p => xform o st p w h) outerV edges ++
  drawEdges (fun p => xform o st p w h) rotInner edges ++
  connectionCmds (fun p => xform o st p w h) rotInner ++
  sphereRingCmds o st w h ++
  sphereLongCmds o st w h ++
  drawScanlines w h ++
  [Cmd.seg (w/2 - 15) (h/2) (w/2 + 15) (h/2),
   Cmd.seg (w/2) (h/2 - 15) (w/2) (h/2 + 15),
   Cmd.arc (w/2) (h/2) 2]

/-- `renderEventHorizon(ctx, w, h, alpha)` (lines 134-233): dark fill, 40
receding horizontal lines, up to 24 converging vertical lines (those with
positive fade), horizon glow band, 6 ripple ellipses, 30 data fragments, 20
stars, scanlines and vignette.  `alpha` only drives styling and therefore
selects no geometry. -/
def renderEventHorizon (o : Oracle) (st : State) (w h alpha : ℚ) : List Cmd :=
  let _ := alpha
  let horizon := h * (21/50)
  let vanishX := w / 2
  let vanishY := horizon
  let gridPhase := qmod (st.hyperTime * (3/10)) 1
  [Cmd.rect 0 0 w h] ++
  ((List.range 40).map fun i =>
    let t := ((i : ℚ) + gridPhase) / 40
    let y := horizon + (h - horizon) * o.pow t (9/5)
    let spread := w * (4/5) + (w * (3/2)) * t
    Cmd.seg (vanishX - spread/2) y (vanishX + spread/2) y) ++
  ((List.range 24).filterMap fun i =>
    let frac := ((i : ℚ) / 23) - 1/2
    let bottomX := vanishX + frac * w * (5/2)
    let fade := 1/5 - |frac| * (1/4)
    if fade ≤ 0 then none
    else some (Cmd.seg vanishX vanishY bottomX (h + 20))) ++
  [Cmd.rect 0 (vanishY - 20) w 40] ++
  ((List.range 6).map fun r =>
    let rippleRadius := qmod (st.hyperTime * 40 + (r : ℚ) * 80) 500
    let ellipseH := rippleRadius * (3/20)
    Cmd.ellipse vanishX (vanishY + ellipseH * (1/2)) rippleRadius ellipseH) ++
  ((List.range 30).map fun i =>
    let seed : ℚ := (i : ℚ) * 7919
    let sx := qmod (seed * 13) w
    let sy := horizon + qmod (seed * 17) (h - horizon)
    let depthT := (sy - horizon) / (h - horizon)
    let size := 1/2 + depthT * (3/2)
    Cmd.rect sx sy size size) ++
  ((List.range 20).map fun i =>
    let seed : ℚ := (i : ℚ) * 3571
    let sx := qmod (seed * 23) w
    let sy := qmod (seed * 31) horizon
    Cmd.rect sx sy 1 1) ++
  drawScanlines w h ++
  [Cmd.rect 0 0 w h]

/-- Lines 277-278 of `renderLoop()`: advance the internal clock by 0.016 and
ease `entryAlpha` toward 1 by 0.02, clamped at 1. -/
def timeStep (s : State) : State :=
  let s := { s with hyperTime := s.hyperTime + 2/125 }
  if s.entryAlpha < 1 then { s with entryAlpha := min 1 (s.entryAlpha + 1/50) } else s

/-- Lines 281-283 of `renderLoop()`: exponential easing of the camera toward
its targets (yaw/pitch factor 0.05, zoom factor 0.04). -/
def easeStep (s : State) : State :=
  { s with camYaw := s.camYaw + (s.targetYaw - s.camYaw) * (1/20),
           camPitch := s.camPitch + (s.targetPitch - s.camPitch) * (1/20),
           camZoom := s.camZoom + (s.targetZoom - s.camZoom) * (1/25) }

/-- Lines 286-289 of `renderLoop()`: the EventHorizon threshold transition —
when `camZoom >= MAX_ZOOM - 0.05` and the mode flag is clear, set it and
reset `horizonAlpha` to 0. -/
def modeStep (s : State) : State :=
  if MAX_ZOOM - 1/20 ≤ s.camZoom ∧ s.inEventHorizon = false then
    { s with inEventHorizon := true, horizonAlpha := 0 }
  else s

/-- The state-mutation part of `renderLoop()` (lines 273-297 and 446): the
`isExpanded` guard, clock/entry-alpha update, camera easing, mode
transition, EventHorizon alpha easing (0.015 per frame, clamped at 1), and
scheduling of the next animation frame. -/
def frameStep (s : State) : State :=
  if s.isExpanded = false then s
  else
    let s1 := modeStep (easeStep (timeStep s))
    if s1.inEventHorizon then
      { s1 with horizonAlpha := min 1 (s1.horizonAlpha + 3/200), animPending := true }
    else
      { s1 with animPending := true }

/-- `renderLoop()` (lines 273-447): returns the successor state together
with the list of drawing primitives issued during the frame.  An inactive
engine returns immediately: same state, no drawing, no scheduled frame. -/
def renderLoop (o : Oracle) (s : State) : State × List Cmd :=
  if s.isExpanded = false then (s, [])
  else
    let w := s.width
    let h := s.height
    let s1 := modeStep (easeStep (timeStep s))
    if s1.inEventHorizon then
      let s2 := { s1 with horizonAlpha := min 1 (s1.horizonAlpha + 3/200) }
      ({ s2 with animPending := true }, renderEventHorizon o s2 w h s2.horizonAlpha)
    else
      ({ s1 with animPending := true }, voidScene o s1 w h)

/-- `exit()` (lines 507-523): no-op when inactive; otherwise clear the
active flag, detach the four input listeners, cancel the pending animation
frame, and run the `onExit` callback when one was supplied. -/
def exit (s : State) : State :=
  if s.isExpanded = false then s
  else
    let s := { s with isExpanded := false, listenersAttached := false,
                      animPending := false }
    if s.hasOnExitCallback then { s with onExitRuns := s.onExitRuns + 1 } else s

/-- `onHyperKey(e)` for `e.key === 'Escape'` (lines 245-254): in EventHorizon
mode, clear the mode flag and set the target zoom to `MAX_ZOOM - 0.5`;
otherwise call `exit()`. -/
def onHyperKey (s : State) : State :=
  if s.inEventHorizon then
    { s with inEventHorizon := false, targetZoom := MAX_ZOOM - 1/2 }
  else exit s

/-- `onHyperWheel(e)` (lines 256-261): ignored in EventHorizon mode;
otherwise add `deltaY * 0.003` to the target zoom and clamp it to
`[0, MAX_ZOOM]`. -/
def onHyperWheel (s : State) (deltaY : ℚ) : State :=
  if s.inEventHorizon then s
  else
    let t := s.targetZoom + deltaY * (3/1000)
    { s with targetZoom := max 0 (min MAX_ZOOM t) }

/-- `onHyperMouse(e)` (lines 240-243); `pi` stands for `Math.PI`, `winW` and
`winH` for `window.innerWidth` / `window.innerHeight`, `cx`/`cy` for
`e.clientX` / `e.clientY`. -/
def onHyperMouse (pi : ℚ) (s : State) (winW winH cx cy : ℚ) : State :=
  { s with targetYaw := ((cx / winW) - 1/2) * pi * (8/5),
           targetPitch := ((cy / winH) - 1/2) * pi * (9/10) }

/-- `onHyperResize()` (lines 263-266): size the canvas to the viewport. -/
def onHyperResize (s : State) (winW winH : ℚ) : State :=
  { s with width := winW, height := winH }

/-- The state reset performed by `enter()` before its first frame
(lines 484-502): mark the session active, size the canvas to the viewport,
zero the clock and entry alpha, reset every camera value and target to 0,
leave EventHorizon with `horizonAlpha = 0`, and attach the
mousemove/keydown/wheel/resize listeners. -/
def enterReset (s : State) (winW winH : ℚ) : State :=
  { s with isExpanded := true, width := winW, height := winH,
           hyperTime := 0, entryAlpha := 0,
           camYaw := 0, camPitch := 0, targetYaw := 0, targetPitch := 0,
           camZoom := 0, targetZoom := 0,
           inEventHorizon := false, horizonAlpha := 0,
           listenersAttached := true, attachCount := s.attachCount + 1 }

/-- `enter()` (lines 482-505): no-op when already active; otherwise perform
the reset and run the first `renderLoop()` frame synchronously. -/
def enter (s : State) (winW winH : ℚ) : State :=
  if s.isExpanded then s else frameStep (enterReset s winW winH)

/-- The click listener attached by `init` (lines 462-477), receiving a click
at instant `t` (in seconds; the source timeout of 1200 ms is `6/5`).  The
pending `setTimeout` reset of `clickCount` is resolved lazily: the only
reader of `clickCount` is this handler, so a stored expiry at or before `t`
means the counter was already reset to 0 when this click arrives.  A third
accumulated click resets the counter and invokes `enter()` (counted by
`enterCalls`); the second click fires the `cube-sensing` CSS pulse (counted
by `sensingCount`). -/
def clickStep (s : State) (t winW winH : ℚ) : State :=
  if s.isExpanded then s
  else
    let count0 :=
      match s.clickTimerExpiry with
      | some te => if te ≤ t then 0 else s.clickCount
      | none => s.clickCount
    let count := count0 + 1
    let s := { s with clickCount := count, clickTimerExpiry := some (t + 6/5) }
    let s := if count = 2 then { s with sensingCount := s.sensingCount + 1 } else s
    if 3 ≤ count then
      let s := { s with clickCount := 0, enterCalls := s.enterCalls + 1 }
      enter s winW winH
    else s

/-- The engine state right after a successful `init`: every module-level
variable at its declaration value (lines 24-48), no session, no listeners,
click counter 0 with no pending timer; the canvas keeps the DOM default
size 300×150 until `enter` or a resize sizes it. -/
def initState (hasOnExit : Bool) : State :=
  { isExpanded := false,
    camYaw := 0, camPitch := 0, targetYaw := 0, targetPitch := 0,
    camZoom := 0, targetZoom := 0,
    hyperTime := 0, entryAlpha := 0,
    inEventHorizon := false, horizonAlpha := 0,
    width := 300, height := 150,
    animPending := false, listenersAttached := false, attachCount := 0,
    clickCount := 0, clickTimerExpiry := none,
    enterCalls := 0, sensingCount := 0,
    hasOnExitCallback := hasOnExit, onExitRuns := 0 }

/-- The JavaScript error raised by a member access on `null`/`undefined`. -/
inductive JsError where
  | typeError
deriving DecidableEq

/-- `init(config)` (lines 454-480): store the trigger element and the
`onExit` callback, then call `cubeContainer.addEventListener('click', …)`.
The code has no guard: when `config.cubeContainer` is `null`/`undefined`,
that member access throws a `TypeError` and no listener is attached. -/
def init (cubeContainer : Option Unit) (hasOnExit : Bool) : Except JsError State :=
  match cubeContainer with
  | none => Except.error JsError.typeError
  | some _ => Except.ok (initState hasOnExit)

/-- An external event delivered to the engine: a DOM event (carrying the
environment readings the handler makes), a frame callback, or a public API
call. -/
inductive Ev where
  | click (t winW winH : ℚ)
  | mouse (winW winH cx cy : ℚ)
  | keyEscape
  | wheel (deltaY : ℚ)
  | resize (winW winH : ℚ)
  | frame
  | apiEnter (winW winH : ℚ)
  | apiExit
deriving DecidableEq

/-- `true` exactly for wheel events and frame callbacks. -/
def isWheelOrFrame : Ev → Bool
  | Ev.wheel _ => true
  | Ev.frame => true
  | _ => false

/-- Deliver one event.  The mousemove/keydown/wheel/resize handlers receive
events only while their listeners are attached (attached by `enter`,
removed by `exit`); the click listener is attached permanently by `init`; a
frame callback runs the render loop, whose own guard makes it a no-op when
the session is inactive. -/
def applyEv (pi : ℚ) (s : State) : Ev → State
  | Ev.click t winW winH => clickStep s t winW winH
  | Ev.mouse winW winH cx cy =>
      if s.listenersAttached then onHyperMouse pi s winW winH cx cy else s
  | Ev.keyEscape => if s.listenersAttached then onHyperKey s else s
  | Ev.wheel d => if s.listenersAttached then onHyperWheel s d else s
  | Ev.resize winW winH =>
      if s.listenersAttached then onHyperResize s winW winH else s
  | Ev.frame => frameStep s
  | Ev.apiEnter winW winH => enter s winW winH
  | Ev.apiExit => exit s

/-- Run a sequence of events from a state. -/
def run (pi : ℚ) (s : State) (evs : List Ev) : State :=
  evs.foldl (applyEv pi) s

/-! ## Field-level characterizations of the render-loop step -/

lemma frameStep_inactive (s : State) (h : s.isExpanded = false) : frameStep s = s := by
  simp [frameStep, h]

lemma frameStep_isExpanded (s : State) : (frameStep s).isExpanded = s.isExpanded := by
  simp only [frameStep, modeStep, easeStep, timeStep]
  split_ifs <;> simp_all

lemma frameStep_listenersAttached (s : State) :
    (frameStep s).listenersAttached = s.listenersAttached := by
  simp only [frameStep, modeStep, easeStep, timeStep]
  split_ifs <;> simp_all

lemma frameStep_targetZoom (s : State) : (frameStep s).targetZoom = s.targetZoom := by
  simp only [frameStep, modeStep, easeStep, timeStep]
  split_ifs <;> simp_all

lemma frameStep_targetYaw (s : State) : (frameStep s).targetYaw = s.targetYaw := by
  simp only [frameStep, modeStep, easeStep, timeStep]
  split_ifs <;> simp_all

lemma frameStep_targetPitch (s : State) : (frameStep s).targetPitch = s.targetPitch := by
  simp only [frameStep, modeStep, easeStep, timeStep]
  split_ifs <;> simp_all

lemma frameStep_camZoom (s : State) (h : s.isExpanded = true) :
    (frameStep s).camZoom = s.camZoom + (s.targetZoom - s.camZoom) * (1/25) := by
  simp only [frameStep, modeStep, easeStep, timeStep]
  split_ifs <;> simp_all

lemma frameStep_camYaw (s : State) (h : s.isExpanded = true) :
    (frameStep s).camYaw = s.camYaw + (s.targetYaw - s.camYaw) * (1/20) := by
  simp only [frameStep, modeStep, easeStep, timeStep]
  split_ifs <;> simp_all

lemma frameStep_camPitch (s : State) (h : s.isExpanded = true) :
    (frameStep s).camPitch = s.camPitch + (s.targetPitch - s.camPitch) * (1/20) := by
  simp only [frameStep, modeStep, easeStep, timeStep]
  split_ifs <;> simp_all

lemma frameStep_entryAlpha (s : State) (h : s.isExpanded = true) :
    (frameStep s).entryAlpha =
      if s.entryAlpha < 1 then min 1 (s.entryAlpha + 1/50) else s.entryAlpha := by
  simp only [frameStep, modeStep, easeStep, timeStep]
  split_ifs <;> simp_all

/-- Within an active frame, the EventHorizon flag after the step is
equivalent to: it was already set, or the freshly eased zoom reached the
threshold `MAX_ZOOM - 0.05`. -/
lemma frameStep_inEventHorizon (s : State) (h : s.isExpanded = true) :
    (frameStep s).inEventHorizon = true ↔
      (s.inEventHorizon = true ∨
        MAX_ZOOM - 1/20 ≤ s.camZoom + (s.targetZoom - s.camZoom) * (1/25)) := by
  simp only [frameStep, modeStep, easeStep, timeStep]
  split_ifs <;> simp_all

/-- The EventHorizon flag, once set, is never cleared by a frame. -/
lemma frameStep_inEventHorizon_mono (s : State) (h : s.inEventHorizon = true) :
    (frameStep s).inEventHorizon = true := by
  by_cases ha : s.isExpanded = true
  · exact (frameStep_inEventHorizon s ha).mpr (Or.inl h)
  · rw [frameStep_inactive s (by simpa using ha)]
    exact h

/-! ## The `enter` transition -/

lemma enter_active (s : State) (winW winH : ℚ) (h : s.isExpanded = true) :
    enter s winW winH = s := by
  simp [enter, h]

lemma enter_inactive_eq (s : State) (winW winH : ℚ) (h : s.isExpanded = false) :
    enter s winW winH = frameStep (enterReset s winW winH) := by
  simp [enter, h]

/-- Explicit form of `enter` from an inactive state: the camera is reset and
the synchronous first frame has already advanced the clock to 0.016 and the
entry alpha to 0.02, leaving every camera value at exactly 0 and the mode at
Void. -/
lemma enter_inactive (s : State) (winW winH : ℚ) (h : s.isExpanded = false) :
    enter s winW winH =
      { s with isExpanded := true, width := winW, height := winH,
               hyperTime := 2/125, entryAlpha := 1/50,
               camYaw := 0, camPitch := 0, targetYaw := 0, targetPitch := 0,
               camZoom := 0, targetZoom := 0,
               inEventHorizon := false, horizonAlpha := 0,
               listenersAttached := true, attachCount := s.attachCount + 1,
               animPending := true } := by
  rw [enter_inactive_eq s winW winH h]
  ext <;> norm_num [frameStep, enterReset, timeStep, easeStep, modeStep, MAX_ZOOM]

/-! ## The zoom clamp invariant -/

/-- Both the target zoom and the eased zoom lie in `[0, MAX_ZOOM]`. -/
def ZoomInv (s : State) : Prop :=
  0 ≤ s.targetZoom ∧ s.targetZoom ≤ MAX_ZOOM ∧ 0 ≤ s.camZoom ∧ s.camZoom ≤ MAX_ZOOM

lemma zoomInv_easeStep (s : State) (h : ZoomInv s) : ZoomInv (easeStep s) := by
  obtain ⟨h1, h2, h3, h4⟩ := h
  exact ⟨h1, h2, by simp only [easeStep]; linarith, by simp only [easeStep]; linarith⟩

lemma zoomInv_frameStep (s : State) (h : ZoomInv s) : ZoomInv (frameStep s) := by
  by_cases ha : s.isExpanded = true
  · obtain ⟨h1, h2, h3, h4⟩ := h
    rw [ZoomInv, frameStep_targetZoom, frameStep_camZoom s ha]
    exact ⟨h1, h2, by linarith, by linarith⟩
  · rw [frameStep_inactive s (by simpa using ha)]
    exact h

lemma wheel_clamped (s : State) (d : ℚ) (hEH : s.inEventHorizon = false) :
    0 ≤ (onHyperWheel s d).targetZoom ∧ (onHyperWheel s d).targetZoom ≤ MAX_ZOOM := by
  simp only [onHyperWheel, hEH]
  exact ⟨le_max_left 0 _, max_le (by norm_num [MAX_ZOOM]) (min_le_left _ _)⟩

lemma zoomInv_wheel (s : State) (d : ℚ) (h : ZoomInv s) : ZoomInv (onHyperWheel s d) := by
  by_cases hEH : s.inEventHorizon = true
  · simpa only [onHyperWheel, hEH, if_pos] using h
  · obtain ⟨c1, c2⟩ := wheel_clamped s d (by simpa using hEH)
    obtain ⟨h1, h2, h3, h4⟩ := h
    have hz : (onHyperWheel s d).camZoom = s.camZoom := by
      simp only [onHyperWheel]; split_ifs; rfl
    exact ⟨c1, c2, hz ▸ h3, hz ▸ h4⟩

lemma zoomInv_enter (s : State) (winW winH : ℚ) (h : ZoomInv s) :
    ZoomInv (enter s winW winH) := by
  by_cases ha : s.isExpanded = true
  · rw [enter_active s winW winH ha]; exact h
  · rw [enter_inactive s winW winH (by simpa using ha)]
    exact ⟨le_refl 0, by norm_num [MAX_ZOOM], le_refl 0, by norm_num [MAX_ZOOM]⟩

lemma zoomInv_exit (s : State) (h : ZoomInv s) : ZoomInv (exit s) := by
  simp only [Tachyonic.exit]
  split_ifs <;> exact h

lemma zoomInv_key (s : State) (h : ZoomInv s) : ZoomInv (onHyperKey s) := by
  obtain ⟨h1, h2, h3, h4⟩ := h
  by_cases hEH : s.inEventHorizon = true
  · simp only [onHyperKey, hEH, if_pos]
    exact ⟨by norm_num [MAX_ZOOM], by norm_num [MAX_ZOOM], h3, h4⟩
  · simp only [onHyperKey, hEH, if_neg]
    exact zoomInv_exit s ⟨h1, h2, h3, h4⟩

lemma zoomInv_click (s : State) (t winW winH : ℚ) (h : ZoomInv s) :
    ZoomInv (clickStep s t winW winH) := by
  simp only [clickStep]
  split_ifs <;> first
    | exact h
    | exact zoomInv_enter _ winW winH h

lemma zoomInv_applyEv (pi : ℚ) (s : State) (e : Ev) (h : ZoomInv s) :
    ZoomInv (applyEv pi s e) := by
  cases e with
  | click t winW winH => exact zoomInv_click s t winW winH h
  | mouse winW winH cx cy =>
      simp only [applyEv]; split_ifs <;> [exact h; exact h]
  | keyEscape =>
      simp only [applyEv]; split_ifs with hl
      · exact zoomInv_key s h
      · exact h
  | wheel d =>
      simp only [applyEv]; split_ifs with hl
      · exact zoomInv_wheel s d h
      · exact h
  | resize winW winH =>
      simp only [applyEv]; split_ifs <;> [exact h; exact h]
  | frame => exact zoomInv_frameStep s h
  | apiEnter winW winH => exact zoomInv_enter s winW winH h
  | apiExit => exact zoomInv_exit s h

lemma zoomInv_run (pi : ℚ) (s : State) (evs : List Ev) (h : ZoomInv s) :
    ZoomInv (run pi s evs) := by
  induction evs generalizing s with
  | nil => exact h
  | cons e tl ih => exact ih (applyEv pi s e) (zoomInv_applyEv pi s e h)

/-! ## Iterated frames -/

lemma iterate_isExpanded (s : State) (n : ℕ) :
    (frameStep^[n] s).isExpanded = s.isExpanded := by
  induction n generalizing s with
  | zero => rfl
  | succ n ih =>
      rw [Function.iterate_succ_apply, ih (frameStep s), frameStep_isExpanded]

lemma iterate_targetZoom (s : State) (n : ℕ) :
    (frameStep^[n] s).targetZoom = s.targetZoom := by
  induction n generalizing s with
  | zero => rfl
  | succ n ih =>
      rw [Function.iterate_succ_apply, ih (frameStep s), frameStep_targetZoom]

lemma iterate_listenersAttached (s : State) (n : ℕ) :
    (frameStep^[n] s).listenersAttached = s.listenersAttached := by
  induction n generalizing s with
  | zero => rfl
  | succ n ih =>
      rw [Function.iterate_succ_apply, ih (frameStep s), frameStep_listenersAttached]

/-- Closed form of the eased zoom after `n` active frames: exponential decay
of the gap to the (unchanged) target with ratio `1 - 0.04 = 24/25`. -/
lemma iterate_camZoom (s : State) (h : s.isExpanded = true) (n : ℕ) :
    (frameStep^[n] s).camZoom =
      s.targetZoom - (s.targetZoom - s.camZoom) * (24/25) ^ n := by
  induction n generalizing s with
  | zero => simp only [Function.iterate_zero_apply, pow_zero]; ring
  | succ n ih =>
      rw [Function.iterate_succ_apply,
          ih (frameStep s) (by rw [frameStep_isExpanded]; exact h),
          frameStep_targetZoom, frameStep_camZoom s h]
      ring

/-- While the eased zoom chases a target above it, it is nondecreasing over
frames. -/
lemma iterate_camZoom_mono (s : State) (h : s.isExpanded = true)
    (hct : s.camZoom ≤ s.targetZoom) {k n : ℕ} (hkn : k ≤ n) :
    (frameStep^[k] s).camZoom ≤ (frameStep^[n] s).camZoom := by
  rw [iterate_camZoom s h k, iterate_camZoom s h n]
  have hpow : (24/25 : ℚ) ^ n ≤ (24/25) ^ k :=
    pow_le_pow_of_le_one (by norm_num) (by norm_num) hkn
  have hd : 0 ≤ s.targetZoom - s.camZoom := sub_nonneg.mpr hct
  nlinarith

lemma iterate_inEventHorizon_true (s : State) (h : s.inEventHorizon = true) (n : ℕ) :
    (frameStep^[n] s).inEventHorizon = true := by
  induction n generalizing s with
  | zero => exact h
  | succ n ih =>
      rw [Function.iterate_succ_apply]
      exact ih (frameStep s) (frameStep_inEventHorizon_mono s h)

/-- If the eased zoom stays strictly below the threshold through frame `n`,
the EventHorizon flag stays clear through frame `n`. -/
lemma iterate_inEventHorizon_false (s : State) (h : s.isExpanded = true)
    (hEH : s.inEventHorizon = false) (n : ℕ)
    (hall : ∀ k, 1 ≤ k → k ≤ n → (frameStep^[k] s).camZoom < MAX_ZOOM - 1/20) :
    (frameStep^[n] s).inEventHorizon = false := by
  induction n with
  | zero => exact hEH
  | succ n ih =>
      have hprev : (frameStep^[n] s).inEventHorizon = false :=
        ih fun k h1 h2 => hall k h1 (le_trans h2 (Nat.le_succ n))
      have hact : (frameStep^[n] s).isExpanded = true := by
        rw [iterate_isExpanded]; exact h
      have hlt := hall (n + 1) (Nat.le_add_left 1 n) (le_refl _)
      rw [Function.iterate_succ_apply', frameStep_camZoom _ hact] at hlt
      rw [Function.iterate_succ_apply']
      cases hb : (frameStep (frameStep^[n] s)).inEventHorizon with
      | false => rfl
      | true =>
          rcases (frameStep_inEventHorizon _ hact).mp hb with h1 | h2
          · rw [hprev] at h1; exact absurd h1 (by simp)
          · exact absurd h2 (not_le.mpr hlt)

/-- Without input (all targets equal to the current values, everything 0),
the camera does not drift over frames. -/
lemma iterate_noinput (s : State) (h : s.isExpanded = true)
    (hy : s.camYaw = 0) (hty : s.targetYaw = 0)
    (hp : s.camPitch = 0) (htp : s.targetPitch = 0)
    (hz : s.camZoom = 0) (htz : s.targetZoom = 0) (n : ℕ) :
    (frameStep^[n] s).camYaw = 0 ∧ (frameStep^[n] s).camPitch = 0 ∧
    (frameStep^[n] s).camZoom = 0 := by
  induction n generalizing s with
  | zero => exact ⟨hy, hp, hz⟩
  | succ n ih =>
      rw [Function.iterate_succ_apply]
      refine ih (frameStep s) (by rw [frameStep_isExpanded]; exact h) ?_ ?_ ?_ ?_ ?_ ?_
      · rw [frameStep_camYaw s h, hy, hty]; ring
      · rw [frameStep_targetYaw, hty]
      · rw [frameStep_camPitch s h, hp, htp]; ring
      · rw [frameStep_targetPitch, htp]
      · rw [frameStep_camZoom s h, hz, htz]; ring
      · rw [frameStep_targetZoom, htz]

/-- Closed form of the entry alpha after `n` active frames: a linear ramp of
0.02 per frame clamped at 1. -/
lemma iterate_entryAlpha (s : State) (h : s.isExpanded = true)
    (ha0 : 0 ≤ s.entryAlpha) (ha1 : s.entryAlpha ≤ 1) (n : ℕ) :
    (frameStep^[n] s).entryAlpha = min 1 (s.entryAlpha + n * (1/50)) := by
  induction n generalizing s with
  | zero =>
      simp only [Function.iterate_zero_apply, Nat.cast_zero, zero_mul, add_zero]
      exact (min_eq_right ha1).symm
  | succ n ih =>
      have hstep : (frameStep s).entryAlpha =
          if s.entryAlpha < 1 then min 1 (s.entryAlpha + 1/50) else s.entryAlpha :=
        frameStep_entryAlpha s h
      have hact : (frameStep s).isExpanded = true := by
        rw [frameStep_isExpanded]; exact h
      rw [Function.iterate_succ_apply]
      rcases lt_or_le s.entryAlpha 1 with hlt | hge
      · rw [if_pos hlt] at hstep
        rcases le_or_lt (s.entryAlpha + 1/50) 1 with hle | hgt
        · rw [ih (frameStep s) hact (by rw [hstep]; positivity)
              (by rw [hstep]; exact min_le_left 1 _), hstep, min_eq_right hle]
          push_cast
          ring_nf
        · have h1 : (frameStep s).entryAlpha = 1 := by
            rw [hstep]; exact min_eq_left (le_of_lt hgt)
          rw [ih (frameStep s) hact (by rw [h1]; norm_num) (by rw [h1]), h1]
          have : (1:ℚ) ≤ s.entryAlpha + (n + 1 : ℕ) * (1/50) := by
            push_cast
            nlinarith [(Nat.cast_nonneg n : (0:ℚ) ≤ (n:ℚ))]
          rw [min_eq_left (by nlinarith [(Nat.cast_nonneg n : (0:ℚ) ≤ (n:ℚ))]),
              min_eq_left this]
      · have h1 : s.entryAlpha = 1 := le_antisymm ha1 hge
        rw [if_neg (not_lt.mpr hge)] at hstep
        rw [ih (frameStep s) hact (by rw [hstep]; exact ha0) (by rw [hstep]; exact ha1),
            hstep, h1]
        rw [min_eq_left (by nlinarith [(Nat.cast_nonneg n : (0:ℚ) ≤ (n:ℚ))]),
            min_eq_left (by nlinarith [(Nat.cast_nonneg n : (0:ℚ) ≤ (n:ℚ))])]

/-! ## Auxiliary facts about `exit`, `enter` and the click handler -/

lemma exit_isExpanded (s : State) : (exit s).isExpanded = false := by
  simp only [Tachyonic.exit]
  split_ifs with h1 h2 <;> simp_all

lemma exit_inEventHorizon (s : State) : (exit s).inEventHorizon = s.inEventHorizon := by
  simp only [Tachyonic.exit]
  split_ifs <;> rfl

lemma enter_isExpanded (s : State) (winW winH : ℚ) :
    (enter s winW winH).isExpanded = true := by
  by_cases ha : s.isExpanded = true
  · rw [enter_active s winW winH ha]; exact ha
  · rw [enter_inactive s winW winH (by simpa using ha)]

lemma enter_inEventHorizon_false (s : State) (winW winH : ℚ)
    (hs : s.isExpanded = false) : (enter s winW winH).inEventHorizon = false := by
  rw [enter_inactive s winW winH hs]

lemma clickStep_active (s : State) (t winW winH : ℚ) (h : s.isExpanded = true) :
    clickStep s t winW winH = s := by
  simp [clickStep, h]

lemma clickStep_inEventHorizon (s : State) (t winW winH : ℚ)
    (hEH : s.inEventHorizon = false) :
    (clickStep s t winW winH).inEventHorizon = false := by
  by_cases ha : s.isExpanded = true
  · rw [clickStep_active s t winW winH ha]; exact hEH
  · have ha' : s.isExpanded = false := by simpa using ha
    simp only [clickStep, ha', Bool.false_eq_true, if_false]
    split_ifs <;>
      first
        | exact hEH
        | exact enter_inEventHorizon_false _ winW winH (by simp [ha'])

/-- A session that is not active cannot acquire the EventHorizon flag from
any single event: the flag is only ever set inside an active frame. -/
lemma inEventHorizon_unreachable_inactive (pi : ℚ) (s : State) (e : Ev)
    (hEH : s.inEventHorizon = false) (hs : s.isExpanded = false) :
    (applyEv pi s e).inEventHorizon = false := by
  cases e with
  | click t winW winH => exact clickStep_inEventHorizon s t winW winH hEH
  | mouse winW winH cx cy =>
      simp only [applyEv]; split_ifs <;> [exact hEH; exact hEH]
  | keyEscape =>
      simp only [applyEv]
      split_ifs with hl
      · simp only [onHyperKey, hEH, Bool.false_eq_true, if_false]
        rw [exit_inEventHorizon]; exact hEH
      · exact hEH
  | wheel d =>
      simp only [applyEv, onHyperWheel]
      split_ifs <;> exact hEH
  | resize winW winH =>
      simp only [applyEv]; split_ifs <;> [exact hEH; exact hEH]
  | frame =>
      show (frameStep s).inEventHorizon = false
      rw [frameStep_inactive s hs]; exact hEH
  | apiEnter winW winH => exact enter_inEventHorizon_false s winW winH hs
  | apiExit =>
      show (Tachyonic.exit s).inEventHorizon = false
      rw [exit_inEventHorizon]; exact hEH

/-! ## Claim theorems -/

/-- C2: for every sequence of wheel events and frame callbacks during a
session started by `enter()` (which resets zoom to 0), both the target zoom
and the eased zoom stay within `[0, MAX_ZOOM]` at every step (i.e. after
every prefix of the sequence); each wheel event clamps the target into the
interval, and the per-frame easing keeps the eased value in the interval
whenever both operands are in it. -/
theorem c2_zoom_clamp (pi winW winH : ℚ) (s : State) (hs : s.isExpanded = false)
    (evs : List Ev) (hevs : ∀ e ∈ evs, isWheelOrFrame e = true) (n : ℕ) :
    ZoomInv (run pi (enter s winW winH) (evs.take n)) ∧
    (∀ (s' : State) (d : ℚ), s'.inEventHorizon = false →
      0 ≤ (onHyperWheel s' d).targetZoom ∧ (onHyperWheel s' d).targetZoom ≤ MAX_ZOOM) ∧
    (∀ s' : State, ZoomInv s' →
      0 ≤ (easeStep s').camZoom ∧ (easeStep s').camZoom ≤ MAX_ZOOM) := by
  have _ := hevs
  refine ⟨?_, fun s' d hEH => wheel_clamped s' d hEH, fun s' h => ?_⟩
  · have h0 : ZoomInv (enter s winW winH) := by
      rw [enter_inactive s winW winH hs]
      exact ⟨le_refl 0, by norm_num [MAX_ZOOM], le_refl 0, by norm_num [MAX_ZOOM]⟩
    exact zoomInv_run pi _ _ h0
  · obtain ⟨h1, h2, h3, h4⟩ := h
    constructor <;> simp only [easeStep] <;> linarith

/-- Witness for C2 at a concrete session: a large wheel delta followed by a
frame keeps both zoom values clamped. -/
theorem c2_zoom_clamp_witness :
    ZoomInv (run 0 (enter (initState false) 800 600) ([Ev.wheel 1000, Ev.frame].take 2)) :=
  (c2_zoom_clamp 0 800 600 (initState false) rfl [Ev.wheel 1000, Ev.frame]
    (by intro e he; fin_cases he <;> rfl) 2).1

/-- C6: a world-space point whose zoom-adjusted perspective depth
`p_z + 5 - camZoom` is at most 0.1 is rejected by `proj` (no screen point),
any edge with at least one culled endpoint contributes no drawing command,
and every segment the edge loop does emit comes from two successfully
projected endpoints, both with depth strictly above 0.1. -/
theorem c6_projection_culling (camZoom w h : ℚ) :
    (∀ p : Vec3, p.2.2 + 5 - camZoom ≤ 1/10 → proj camZoom p w h = none) ∧
    (∀ (rot : Vec3 → Vec3) (vs : List Vec3) (e : Nat × Nat),
      (proj camZoom (rot (vs.getD e.1 vzero)) w h = none ∨
       proj camZoom (rot (vs.getD e.2 vzero)) w h = none) →
      edgeSeg (fun p => proj camZoom (rot p) w h) vs e = none) ∧
    (∀ (rot : Vec3 → Vec3) (vs : List Vec3) (es : List (Nat × Nat)),
      ∀ c ∈ drawEdges (fun p => proj camZoom (rot p) w h) vs es,
      ∃ e, e ∈ es ∧ ∃ pa pb,
        proj camZoom (rot (vs.getD e.1 vzero)) w h = some pa ∧
        proj camZoom (rot (vs.getD e.2 vzero)) w h = some pb ∧
        1/10 < pa.2.2 ∧ 1/10 < pb.2.2 ∧
        c = Cmd.seg pa.1 pa.2.1 pb.1 pb.2.1) := by
  have hnone : ∀ p : Vec3, p.2.2 + 5 - camZoom ≤ 1/10 → proj camZoom p w h = none := by
    intro p hp
    simp only [proj]
    rw [if_pos hp]
  have hsome : ∀ p q, proj camZoom p w h = some q → 1/10 < q.2.2 := by
    intro p q hpq
    simp only [proj] at hpq
    split_ifs at hpq with hz
    have hq := Option.some.inj hpq
    subst hq
    exact not_le.mp hz
  refine ⟨hnone, ?_, ?_⟩
  · intro rot vs e he
    cases h1 : proj camZoom (rot (vs.getD e.1 vzero)) w h with
    | none => simp only [edgeSeg, h1]
    | some pa =>
        cases h2 : proj camZoom (rot (vs.getD e.2 vzero)) w h with
        | none => simp only [edgeSeg, h1, h2]
        | some pb =>
            rcases he with hcul | hcul
            · rw [h1] at hcul; exact absurd hcul (by simp)
            · rw [h2] at hcul; exact absurd hcul (by simp)
  · intro rot vs es c hc
    simp only [drawEdges, List.mem_filterMap] at hc
    obtain ⟨e, he, hE⟩ := hc
    refine ⟨e, he, ?_⟩
    cases h1 : proj camZoom (rot (vs.getD e.1 vzero)) w h with
    | none => simp only [edgeSeg, h1] at hE; simp at hE
    | some pa =>
        cases h2 : proj camZoom (rot (vs.getD e.2 vzero)) w h with
        | none => simp only [edgeSeg, h1, h2] at hE; simp at hE
        | some pb =>
            simp only [edgeSeg, h1, h2, Option.some.injEq] at hE
            exact ⟨pa, pb, rfl, rfl, hsome _ _ h1, hsome _ _ h2, hE.symm⟩

/-- Witness for C6: a point at transformed depth exactly 0.1 is culled, and
the edge whose first endpoint is that point draws nothing. -/
theorem c6_projection_culling_witness :
    proj 0 (((0 : ℚ), (0 : ℚ), (-49/10 : ℚ)) : Vec3) 800 600 = none ∧
    edgeSeg (fun p => proj 0 (id p) 800 600)
      [(((0 : ℚ), (0 : ℚ), (-49/10 : ℚ)) : Vec3), (((0 : ℚ), (0 : ℚ), (0 : ℚ)) : Vec3)]
      (0, 1) = none := by
  refine ⟨(c6_projection_culling 0 800 600).1 _ (by norm_num), ?_⟩
  exact (c6_projection_culling 0 800 600).2.1 id _ (0, 1)
    (Or.inl ((c6_projection_culling 0 800 600).1 _ (by norm_num [List.getD])))

/-- C7: `enter()` is idempotent — a call while active is a strict no-op; a
call while inactive performs the documented reset (all camera values and
alphas 0, Void mode, session active, listeners attached) and then runs the
first frame; two consecutive calls yield the same state and attach the
listener set only once. -/
theorem c7_enter_idempotent (s : State) (winW winH winW2 winH2 : ℚ) :
    (s.isExpanded = true → enter s winW winH = s) ∧
    (s.isExpanded = false →
      enter s winW winH = frameStep (enterReset s winW winH) ∧
      (enterReset s winW winH).camYaw = 0 ∧
      (enterReset s winW winH).camPitch = 0 ∧
      (enterReset s winW winH).camZoom = 0 ∧
      (enterReset s winW winH).targetYaw = 0 ∧
      (enterReset s winW winH).targetPitch = 0 ∧
      (enterReset s winW winH).targetZoom = 0 ∧
      (enterReset s winW winH).entryAlpha = 0 ∧
      (enterReset s winW winH).horizonAlpha = 0 ∧
      (enterReset s winW winH).hyperTime = 0 ∧
      (enterReset s winW winH).inEventHorizon = false ∧
      (enterReset s winW winH).isExpanded = true ∧
      (enterReset s winW winH).listenersAttached = true) ∧
    (enter s winW winH).isExpanded = true ∧
    enter (enter s winW winH) winW2 winH2 = enter s winW winH ∧
    (enter (enter s winW winH) winW2 winH2).attachCount = (enter s winW winH).attachCount := by
  have hact := enter_isExpanded s winW winH
  have hid : enter (enter s winW winH) winW2 winH2 = enter s winW winH :=
    enter_active _ winW2 winH2 hact
  exact ⟨fun hh => enter_active s winW winH hh,
         fun hh => ⟨enter_inactive_eq s winW winH hh,
           rfl, rfl, rfl, rfl, rfl, rfl, rfl, rfl, rfl, rfl, rfl, rfl⟩,
         hact, hid, by rw [hid]⟩

/-- Witness for C7 at the freshly initialized state. -/
theorem c7_enter_idempotent_witness :
    enter (initState false) 800 600 = frameStep (enterReset (initState false) 800 600) ∧
    enter (enter (initState false) 800 600) 1024 768 = enter (initState false) 800 600 :=
  ⟨((c7_enter_idempotent (initState false) 800 600 1024 768).2.1 rfl).1,
   (c7_enter_idempotent (initState false) 800 600 1024 768).2.2.2.1⟩

/-- C8: starting from `enter()` with default state and no input events, after
50 further frame callbacks the entry alpha has reached exactly 1 (clamped
linear ramp of 0.02 per frame) while yaw, pitch and zoom remain exactly 0. -/
theorem c8_no_drift_fifty_frames :
    (frameStep^[50] (enter (initState false) 800 600)).entryAlpha = 1 ∧
    (frameStep^[50] (enter (initState false) 800 600)).camYaw = 0 ∧
    (frameStep^[50] (enter (initState false) 800 600)).camPitch = 0 ∧
    (frameStep^[50] (enter (initState false) 800 600)).camZoom = 0 := by
  have hr := enter_inactive (initState false) 800 600 rfl
  have hact : (enter (initState false) 800 600).isExpanded = true :=
    enter_isExpanded _ 800 600
  have hy : (enter (initState false) 800 600).camYaw = 0 := by rw [hr]
  have hty : (enter (initState false) 800 600).targetYaw = 0 := by rw [hr]
  have hp : (enter (initState false) 800 600).camPitch = 0 := by rw [hr]
  have htp : (enter (initState false) 800 600).targetPitch = 0 := by rw [hr]
  have hz : (enter (initState false) 800 600).camZoom = 0 := by rw [hr]
  have htz : (enter (initState false) 800 600).targetZoom = 0 := by rw [hr]
  have ha : (enter (initState false) 800 600).entryAlpha = 1/50 := by rw [hr]
  obtain ⟨h1, h2, h3⟩ := iterate_noinput _ hact hy hty hp htp hz htz 50
  refine ⟨?_, h1, h2, h3⟩
  rw [iterate_entryAlpha _ hact (by rw [ha]; norm_num) (by rw [ha]; norm_num), ha]
  rw [min_eq_left (by push_cast; norm_num)]

lemma timeStep_camZoom (s : State) : (timeStep s).camZoom = s.camZoom := by
  simp only [timeStep]; split_ifs <;> rfl

lemma timeStep_targetZoom (s : State) : (timeStep s).targetZoom = s.targetZoom := by
  simp only [timeStep]; split_ifs <;> rfl

lemma timeStep_inEventHorizon (s : State) :
    (timeStep s).inEventHorizon = s.inEventHorizon := by
  simp only [timeStep]; split_ifs <;> rfl

lemma easeStep_camZoom (s : State) :
    (easeStep s).camZoom = s.camZoom + (s.targetZoom - s.camZoom) * (1/25) := rfl

lemma easeStep_inEventHorizon (s : State) :
    (easeStep s).inEventHorizon = s.inEventHorizon := rfl

/-- C9: a click event arriving while a session is active is ignored
completely: the handler returns before touching any state, so the click
counter does not advance, the click timer is not reset, and `enter()` is
not invoked. -/
theorem c9_click_ignored_while_active (s : State) (t winW winH : ℚ)
    (h : s.isExpanded = true) :
    clickStep s t winW winH = s ∧
    (clickStep s t winW winH).clickCount = s.clickCount ∧
    (clickStep s t winW winH).clickTimerExpiry = s.clickTimerExpiry ∧
    (clickStep s t winW winH).enterCalls = s.enterCalls := by
  have he := clickStep_active s t winW winH h
  exact ⟨he, by rw [he], by rw [he], by rw [he]⟩

/-- Witness for C9: a click during an active session leaves the state
untouched. -/
theorem c9_click_ignored_while_active_witness :
    clickStep { initState false with isExpanded := true } 0 800 600 =
      { initState false with isExpanded := true } :=
  (c9_click_ignored_while_active { initState false with isExpanded := true } 0 800 600 rfl).1

/-- A concrete oracle instance, used only to instantiate statements. -/
def trivialOracle : Oracle := ⟨fun _ => 1, fun _ => 0, fun _ _ => 0, 0⟩

/-- C10: when the session is inactive, a render-loop invocation is a
complete no-op — it returns the state unchanged (no clock, alpha, camera or
mode mutation), issues no drawing command, and schedules no further frame;
in particular a stale frame callback firing after `exit()` performs no
work. -/
theorem c10_renderLoop_noop_inactive (o : Oracle) (s : State)
    (h : s.isExpanded = false) :
    renderLoop o s = (s, []) ∧ frameStep s = s ∧
    (∀ s' : State, renderLoop o (exit s') = (exit s', [])) := by
  have main : ∀ s'' : State, s''.isExpanded = false → renderLoop o s'' = (s'', []) := by
    intro s'' h''
    simp [renderLoop, h'']
  exact ⟨main s h, frameStep_inactive s h, fun s' => main _ (exit_isExpanded s')⟩

/-- Witness for C10 at the freshly initialized (inactive) state. -/
theorem c10_renderLoop_noop_inactive_witness :
    renderLoop trivialOracle (initState false) = (initState false, []) :=
  (c10_renderLoop_noop_inactive trivialOracle (initState false) rfl).1

/-- C5: during an active session whose eased zoom rises past the threshold
`MAX_ZOOM - 0.05` for the first time at frame `N`, the EventHorizon flag is
clear at every earlier frame, set from frame `N` on (a single transition),
the transition itself resets the horizon alpha to 0, and the EventHorizon
flag cannot be acquired from any single event while the session is
inactive. -/
theorem c5_mode_determinism (pi : ℚ) (s0 : State)
    (hA : s0.isExpanded = true) (hEH : s0.inEventHorizon = false)
    (hmono : s0.camZoom ≤ s0.targetZoom) (hbelow : s0.camZoom < MAX_ZOOM - 1/20)
    (N : ℕ) (hN : MAX_ZOOM - 1/20 ≤ (frameStep^[N] s0).camZoom)
    (hfirst : ∀ k < N, (frameStep^[k] s0).camZoom < MAX_ZOOM - 1/20) :
    (∀ k < N, (frameStep^[k] s0).inEventHorizon = false) ∧
    (∀ n, N ≤ n → (frameStep^[n] s0).inEventHorizon = true) ∧
    1 ≤ N ∧
    (modeStep (easeStep (timeStep (frameStep^[N-1] s0)))).inEventHorizon = true ∧
    (modeStep (easeStep (timeStep (frameStep^[N-1] s0)))).horizonAlpha = 0 ∧
    (∀ (s : State) (e : Ev), s.inEventHorizon = false → s.isExpanded = false →
      (applyEv pi s e).inEventHorizon = false) := by
  have _ := hmono
  have hN1 : 1 ≤ N := by
    rcases Nat.eq_zero_or_pos N with rfl | h1
    · rw [Function.iterate_zero_apply] at hN
      exact absurd hN (not_le.mpr hbelow)
    · exact h1
  have part1 : ∀ k < N, (frameStep^[k] s0).inEventHorizon = false := by
    intro k hk
    exact iterate_inEventHorizon_false s0 hA hEH k
      (fun j hj1 hj2 => hfirst j (lt_of_le_of_lt hj2 hk))
  have hNpred : N - 1 + 1 = N := Nat.succ_pred_eq_of_pos hN1
  have hactm : (frameStep^[N-1] s0).isExpanded = true := by
    rw [iterate_isExpanded]; exact hA
  have hEHm : (frameStep^[N-1] s0).inEventHorizon = false :=
    part1 (N - 1) (Nat.sub_lt hN1 Nat.one_pos)
  have hstepN : frameStep^[N] s0 = frameStep (frameStep^[N-1] s0) := by
    conv_lhs => rw [← hNpred]
    rw [Function.iterate_succ_apply']
  have hNzoom : MAX_ZOOM - 1/20 ≤
      (frameStep^[N-1] s0).camZoom +
        ((frameStep^[N-1] s0).targetZoom - (frameStep^[N-1] s0).camZoom) * (1/25) := by
    rw [← frameStep_camZoom _ hactm, ← hstepN]
    exact hN
  have hEHN : (frameStep^[N] s0).inEventHorizon = true := by
    rw [hstepN]
    exact (frameStep_inEventHorizon _ hactm).mpr (Or.inr hNzoom)
  have part2 : ∀ n, N ≤ n → (frameStep^[n] s0).inEventHorizon = true := by
    intro n hn
    have hsplit : frameStep^[n] s0 = frameStep^[n-N] (frameStep^[N] s0) := by
      conv_lhs => rw [← Nat.sub_add_cancel hn]
      rw [Function.iterate_add_apply]
    rw [hsplit]
    exact iterate_inEventHorizon_true _ hEHN (n - N)
  have hcond : MAX_ZOOM - 1/20 ≤ (easeStep (timeStep (frameStep^[N-1] s0))).camZoom ∧
      (easeStep (timeStep (frameStep^[N-1] s0))).inEventHorizon = false := by
    constructor
    · rw [easeStep_camZoom, timeStep_camZoom, timeStep_targetZoom]
      exact hNzoom
    · rw [easeStep_inEventHorizon, timeStep_inEventHorizon]
      exact hEHm
  refine ⟨part1, part2, hN1, ?_, ?_,
    fun s e h1 h2 => inEventHorizon_unreachable_inactive pi s e h1 h2⟩
  · rw [modeStep, if_pos hcond]
  · rw [modeStep, if_pos hcond]

/-- State used to instantiate C5: an active session whose eased zoom is just
below the threshold and whose target is `MAX_ZOOM`, so the next frame is
the first to cross. -/
def c5state : State :=
  { initState false with isExpanded := true, listenersAttached := true,
                         camZoom := 4249/1000, targetZoom := 43/10 }

/-- Witness for C5: from `c5state` the threshold is crossed exactly at frame
1, and the transition resets the horizon alpha. -/
theorem c5_mode_determinism_witness :
    (∀ k < 1, (frameStep^[k] c5state).inEventHorizon = false) ∧
    (∀ n, 1 ≤ n → (frameStep^[n] c5state).inEventHorizon = true) ∧
    1 ≤ 1 ∧
    (modeStep (easeStep (timeStep (frameStep^[1-1] c5state)))).inEventHorizon = true ∧
    (modeStep (easeStep (timeStep (frameStep^[1-1] c5state)))).horizonAlpha = 0 ∧
    (∀ (s : State) (e : Ev), s.inEventHorizon = false → s.isExpanded = false →
      (applyEv 0 s e).inEventHorizon = false) := by
  refine c5_mode_determinism 0 c5state rfl rfl ?_ ?_ 1 ?_ ?_
  · norm_num [c5state, initState]
  · norm_num [c5state, initState, MAX_ZOOM]
  · rw [Function.iterate_one, frameStep_camZoom c5state rfl]
    norm_num [c5state, initState, MAX_ZOOM]
  · intro k hk
    simp only [Nat.lt_one_iff] at hk
    subst hk
    simp only [Function.iterate_zero_apply]
    norm_num [c5state, initState, MAX_ZOOM]

/-- C4 (amended): `init` with an absent trigger element is not a silent
no-op — the unguarded `cubeContainer.addEventListener` member access throws
a `TypeError`, which propagates to the caller; no listener is attached and
the engine never activates via clicks.  With a present trigger element,
`init` succeeds and yields the initial engine state. -/
theorem c4_init_missing_trigger (b : Bool) :
    init none b = Except.error JsError.typeError ∧
    (∀ s : State, init none b ≠ Except.ok s) ∧
    init (some ()) b = Except.ok (initState b) := by
  refine ⟨rfl, fun s hok => ?_, rfl⟩
  simp [init] at hok

/-- Counterexample to C4 as stated: calling `init` with an absent trigger
element raises a `TypeError` — it is not a silent no-op. -/
theorem c4_counterexample : init none false = Except.error JsError.typeError := rfl

lemma enter_enterCalls (s : State) (winW winH : ℚ) :
    (enter s winW winH).enterCalls = s.enterCalls := by
  by_cases ha : s.isExpanded = true
  · rw [enter_active s winW winH ha]
  · rw [enter_inactive s winW winH (by simpa using ha)]

lemma enter_clickCount (s : State) (winW winH : ℚ) :
    (enter s winW winH).clickCount = s.clickCount := by
  by_cases ha : s.isExpanded = true
  · rw [enter_active s winW winH ha]
  · rw [enter_inactive s winW winH (by simpa using ha)]

/-- Three clicks whose consecutive gaps are both under the 1.2-second
window: the third click triggers `enter()` once and resets the counter. -/
lemma tripleClick_fast (b : Bool) (pi t1 t2 t3 winW winH : ℚ)
    (h12 : t1 ≤ t2) (h23 : t2 ≤ t3)
    (hg1 : t2 - t1 < 6/5) (hg2 : t3 - t2 < 6/5) :
    (run pi (initState b)
      [Ev.click t1 winW winH, Ev.click t2 winW winH, Ev.click t3 winW winH]).enterCalls = 1 ∧
    (run pi (initState b)
      [Ev.click t1 winW winH, Ev.click t2 winW winH, Ev.click t3 winW winH]).clickCount = 0 ∧
    (run pi (initState b)
      [Ev.click t1 winW winH, Ev.click t2 winW winH, Ev.click t3 winW winH]).isExpanded = true := by
  have _ := h12
  have _ := h23
  have hn1 : ¬(t1 + 6/5 ≤ t2) := by linarith
  have hn2 : ¬(t2 + 6/5 ≤ t3) := by linarith
  refine ⟨?_, ?_, ?_⟩ <;>
    simp [run, applyEv, clickStep, initState, hn1, hn2,
      enter_enterCalls, enter_clickCount, enter_isExpanded]

/-- Three clicks where some consecutive gap reaches the 1.2-second window:
the counter is reset in between and `enter()` is never invoked. -/
lemma tripleClick_slow (b : Bool) (pi t1 t2 t3 winW winH : ℚ)
    (hgap : 6/5 ≤ t2 - t1 ∨ 6/5 ≤ t3 - t2) :
    (run pi (initState b)
      [Ev.click t1 winW winH, Ev.click t2 winW winH, Ev.click t3 winW winH]).enterCalls = 0 ∧
    (run pi (initState b)
      [Ev.click t1 winW winH, Ev.click t2 winW winH, Ev.click t3 winW winH]).isExpanded = false := by
  rcases hgap with hg | hg
  · have h1 : t1 + 6/5 ≤ t2 := by linarith
    by_cases h2 : t2 + 6/5 ≤ t3 <;>
      constructor <;>
        simp [run, applyEv, clickStep, initState, h1, h2]
  · have h2 : t2 + 6/5 ≤ t3 := by linarith
    by_cases h1 : t1 + 6/5 ≤ t2 <;>
      constructor <;>
        simp [run, applyEv, clickStep, initState, h1, h2]

/-- C3 (amended): three clicks on the trigger of an initialized, inactive
engine within a 1.2-second window call `enter()` exactly once and reset the
click counter; three clicks are ignored (zero `enter()` calls) exactly when
some consecutive gap reaches 1.2 seconds — the window is rolling, restarted
by every click, so three clicks spanning 2 seconds with both gaps under
1.2 s still trigger. -/
theorem c3_triple_click (b : Bool) (pi t1 t2 t3 winW winH : ℚ)
    (h12 : t1 ≤ t2) (h23 : t2 ≤ t3) :
    (t3 - t1 < 6/5 →
      (run pi (initState b)
        [Ev.click t1 winW winH, Ev.click t2 winW winH, Ev.click t3 winW winH]).enterCalls = 1 ∧
      (run pi (initState b)
        [Ev.click t1 winW winH, Ev.click t2 winW winH, Ev.click t3 winW winH]).clickCount = 0 ∧
      (run pi (initState b)
        [Ev.click t1 winW winH, Ev.click t2 winW winH, Ev.click t3 winW winH]).isExpanded = true) ∧
    ((6/5 ≤ t2 - t1 ∨ 6/5 ≤ t3 - t2) →
      (run pi (initState b)
        [Ev.click t1 winW winH, Ev.click t2 winW winH, Ev.click t3 winW winH]).enterCalls = 0 ∧
      (run pi (initState b)
        [Ev.click t1 winW winH, Ev.click t2 winW winH, Ev.click t3 winW winH]).isExpanded = false) := by
  constructor
  · intro hwin
    exact tripleClick_fast b pi t1 t2 t3 winW winH h12 h23
      (by linarith) (by linarith)
  · intro hgap
    exact tripleClick_slow b pi t1 t2 t3 winW winH hgap

/-- Witness for C3: clicks at 0 s, 0.1 s, 0.2 s trigger exactly one
`enter()`; clicks at 0 s, 1.5 s, 2 s trigger none. -/
theorem c3_triple_click_witness :
    ((run 0 (initState false)
      [Ev.click 0 800 600, Ev.click (1/10) 800 600, Ev.click (2/10) 800 600]).enterCalls = 1 ∧
     (run 0 (initState false)
      [Ev.click 0 800 600, Ev.click (1/10) 800 600, Ev.click (2/10) 800 600]).isExpanded = true) ∧
    ((run 0 (initState false)
      [Ev.click 0 800 600, Ev.click (3/2) 800 600, Ev.click 2 800 600]).enterCalls = 0 ∧
     (run 0 (initState false)
      [Ev.click 0 800 600, Ev.click (3/2) 800 600, Ev.click 2 800 600]).isExpanded = false) := by
  constructor
  · have h := (c3_triple_click false 0 0 (1/10) (2/10) 800 600
      (by norm_num) (by norm_num)).1 (by norm_num)
    exact ⟨h.1, h.2.2⟩
  · exact (c3_triple_click false 0 0 (3/2) 2 800 600
      (by norm_num) (by norm_num)).2 (Or.inl (by norm_num))

/-- Counterexample to C3 as stated: three clicks at 0 s, 1 s and 2 s — first
to last exactly 2 seconds apart — call `enter()` once, not zero times: each
click restarts the 1.2-second window, so the counter is never reset. -/
theorem c3_counterexample :
    (run 0 (initState false)
      [Ev.click 0 800 600, Ev.click 1 800 600, Ev.click 2 800 600]).enterCalls = 1 ∧
    (run 0 (initState false)
      [Ev.click 0 800 600, Ev.click 1 800 600, Ev.click 2 800 600]).isExpanded = true := by
  have h := tripleClick_fast false 0 0 1 2 800 600 (by norm_num) (by norm_num)
    (by norm_num) (by norm_num)
  exact ⟨h.1, h.2.2⟩

/-! ## Escape from EventHorizon (C1) -/

lemma run_append (pi : ℚ) (s : State) (l1 l2 : List Ev) :
    run pi s (l1 ++ l2) = run pi (run pi s l1) l2 := by
  simp only [run, List.foldl_append]

lemma run_replicate_frame (pi : ℚ) (s : State) (n : ℕ) :
    run pi s (List.replicate n Ev.frame) = frameStep^[n] s := by
  induction n generalizing s with
  | zero => rfl
  | succ n ih =>
      rw [List.replicate_succ]
      show run pi (frameStep s) (List.replicate n Ev.frame) = frameStep^[n+1] s
      rw [ih (frameStep s), Function.iterate_succ_apply]

/-- A frame whose freshly eased zoom stays strictly below the threshold does
not set the EventHorizon flag. -/
lemma frameStep_inEH_false_of_lt (s : State) (hEH : s.inEventHorizon = false)
    (hlt : s.camZoom + (s.targetZoom - s.camZoom) * (1/25) < MAX_ZOOM - 1/20) :
    (frameStep s).inEventHorizon = false := by
  by_cases hact : s.isExpanded = true
  · cases hb : (frameStep s).inEventHorizon with
    | false => rfl
    | true =>
        rcases (frameStep_inEventHorizon s hact).mp hb with h1 | h2
        · rw [hEH] at h1; exact absurd h1 (by simp)
        · exact absurd h2 (not_le.mpr hlt)
  · rw [frameStep_inactive s (by simpa using hact)]; exact hEH

/-- A frame whose freshly eased zoom reaches the threshold does set the
EventHorizon flag, whatever its previous value. -/
lemma iterate_inEH_of_camZoom (s : State) (h : s.isExpanded = true) (n : ℕ)
    (hn : 1 ≤ n) (hz : MAX_ZOOM - 1/20 ≤ (frameStep^[n] s).camZoom) :
    (frameStep^[n] s).inEventHorizon = true := by
  have hpred : n - 1 + 1 = n := Nat.succ_pred_eq_of_pos hn
  have hact : (frameStep^[n-1] s).isExpanded = true := by
    rw [iterate_isExpanded]; exact h
  have hstep : frameStep^[n] s = frameStep (frameStep^[n-1] s) := by
    conv_lhs => rw [← hpred]
    rw [Function.iterate_succ_apply']
  rw [hstep]
  refine (frameStep_inEventHorizon _ hact).mpr (Or.inr ?_)
  rw [← frameStep_camZoom _ hact, ← hstep]
  exact hz

lemma run_frame_eq (s : State) : run 0 s [Ev.frame] = frameStep s := rfl

/-- Delivering one Escape event to an attached EventHorizon session clears
the mode flag and sets the retreat target. -/
lemma c1_escape_event (X : State) (hl : X.listenersAttached = true)
    (hEH : X.inEventHorizon = true) :
    run 0 X [Ev.keyEscape] =
      { X with inEventHorizon := false, targetZoom := MAX_ZOOM - 1/2 } := by
  show applyEv 0 X Ev.keyEscape = _
  simp [applyEv, hl, onHyperKey, hEH]

/-- If the eased zoom at the Escape was at least `683/160`, the very next
frame puts the engine back into EventHorizon mode. -/
lemma c1_escape_reenter (X : State) (hact : X.isExpanded = true)
    (hz : 683/160 ≤ X.camZoom) :
    (frameStep { X with inEventHorizon := false,
                        targetZoom := MAX_ZOOM - 1/2 }).inEventHorizon = true := by
  refine (frameStep_inEventHorizon
    { X with inEventHorizon := false, targetZoom := MAX_ZOOM - 1/2 } hact).mpr
    (Or.inr ?_)
  show MAX_ZOOM - 1/20 ≤ X.camZoom + ((MAX_ZOOM - 1/2) - X.camZoom) * (1/25)
  rw [MAX_ZOOM]
  linarith

/-- C1 (amended): from an active EventHorizon session, a single Escape event
clears the EventHorizon flag, sets the target zoom to the fixed retreat
value `MAX_ZOOM - 0.5`, keeps the session active and leaves the eased zoom
untouched; the immediately following frame callback does not re-enter
EventHorizon mode **provided** the eased zoom at the moment of the Escape is
below `683/160 = 4.26875` (the exact bound below which one easing step
toward the retreat target lands under the re-entry threshold
`MAX_ZOOM - 0.05`).  For eased zoom at or above that bound the next frame
re-enters EventHorizon (see the counterexample). -/
theorem c1_escape_retreat (s : State) (hA : s.isExpanded = true)
    (hEH : s.inEventHorizon = true) (hz : s.camZoom < 683/160) :
    (onHyperKey s).inEventHorizon = false ∧
    (onHyperKey s).targetZoom = MAX_ZOOM - 1/2 ∧
    (onHyperKey s).isExpanded = true ∧
    (onHyperKey s).camZoom = s.camZoom ∧
    (frameStep (onHyperKey s)).inEventHorizon = false := by
  have hkey : onHyperKey s =
      { s with inEventHorizon := false, targetZoom := MAX_ZOOM - 1/2 } := by
    simp [onHyperKey, hEH]
  refine ⟨by rw [hkey], by rw [hkey], by rw [hkey]; exact hA, by rw [hkey], ?_⟩
  rw [hkey]
  apply frameStep_inEH_false_of_lt _ rfl
  show s.camZoom + ((MAX_ZOOM - 1/2) - s.camZoom) * (1/25) < MAX_ZOOM - 1/20
  rw [MAX_ZOOM]
  linarith

/-- State used to instantiate C1: an active EventHorizon session whose eased
zoom sits exactly at the threshold `MAX_ZOOM - 0.05`. -/
def c1state : State :=
  { initState false with isExpanded := true, listenersAttached := true,
                         inEventHorizon := true, horizonAlpha := 1/2,
                         camZoom := 17/4, targetZoom := 43/10 }

/-- Witness for C1 (amended) at `c1state`. -/
theorem c1_escape_retreat_witness :
    (onHyperKey c1state).inEventHorizon = false ∧
    (onHyperKey c1state).targetZoom = MAX_ZOOM - 1/2 ∧
    (onHyperKey c1state).isExpanded = true ∧
    (onHyperKey c1state).camZoom = c1state.camZoom ∧
    (frameStep (onHyperKey c1state)).inEventHorizon = false :=
  c1_escape_retreat c1state rfl rfl (by norm_num [c1state, initState])

/-- The engine state after `enter` (from the initialized state, on an
800×600 viewport) followed by one wheel event of `deltaY = 2000`, which
clamps the target zoom to `MAX_ZOOM`. -/
def c1mid : State :=
  { initState false with isExpanded := true, width := 800, height := 600,
                         hyperTime := 2/125, entryAlpha := 1/50,
                         animPending := true, listenersAttached := true,
                         attachCount := 1, targetZoom := 43/10 }

lemma c1_enter_wheel :
    run 0 (enter (initState false) 800 600) [Ev.wheel 2000] = c1mid := by
  rw [show run 0 (enter (initState false) 800 600) [Ev.wheel 2000] =
        applyEv 0 (enter (initState false) 800 600) (Ev.wheel 2000) from rfl,
      enter_inactive (initState false) 800 600 rfl]
  norm_num [applyEv, onHyperWheel, c1mid, initState, MAX_ZOOM, min_def, max_def]

/-- Counterexample to C1 as stated: a genuine session — `enter`, one wheel
event taking the target zoom to `MAX_ZOOM`, then 121 frame callbacks — is
active and in EventHorizon mode with eased zoom above `683/160`.  A single
Escape event then clears the EventHorizon flag and sets the retreat target,
but the **immediately following frame callback re-enters EventHorizon
mode**: one easing step toward `MAX_ZOOM - 0.5` leaves the zoom at
`4.28 - 4.128·(24/25)^121 ≥ MAX_ZOOM - 0.05`. -/
theorem c1_counterexample :
    (run 0 (enter (initState false) 800 600)
        ([Ev.wheel 2000] ++ List.replicate 121 Ev.frame)).isExpanded = true ∧
    (run 0 (enter (initState false) 800 600)
        ([Ev.wheel 2000] ++ List.replicate 121 Ev.frame)).inEventHorizon = true ∧
    (run 0 (enter (initState false) 800 600)
        ([Ev.wheel 2000] ++ List.replicate 121 Ev.frame ++ [Ev.keyEscape])).inEventHorizon
      = false ∧
    (run 0 (enter (initState false) 800 600)
        ([Ev.wheel 2000] ++ List.replicate 121 Ev.frame ++ [Ev.keyEscape, Ev.frame])).inEventHorizon
      = true := by
  have hsplit1 : run 0 (enter (initState false) 800 600)
      ([Ev.wheel 2000] ++ List.replicate 121 Ev.frame) = frameStep^[121] c1mid := by
    rw [run_append, c1_enter_wheel, run_replicate_frame]
  have hact121 : (frameStep^[121] c1mid).isExpanded = true := by
    rw [iterate_isExpanded]; rfl
  have hq86 : ((24:ℚ)/25)^121 ≤ 1/86 := by norm_num
  have hq688 : ((24:ℚ)/25)^121 ≤ 5/688 := by norm_num
  have hcz : (frameStep^[121] c1mid).camZoom = 43/10 - (43/10) * (24/25)^121 := by
    rw [iterate_camZoom c1mid rfl]
    show (43:ℚ)/10 - ((43:ℚ)/10 - 0) * (24/25)^121 = 43/10 - 43/10 * (24/25)^121
    ring
  have hzge : MAX_ZOOM - 1/20 ≤ (frameStep^[121] c1mid).camZoom := by
    rw [hcz, MAX_ZOOM]
    linarith
  have hEH121 : (frameStep^[121] c1mid).inEventHorizon = true :=
    iterate_inEH_of_camZoom c1mid rfl 121 (by norm_num) hzge
  have hlist121 : (frameStep^[121] c1mid).listenersAttached = true := by
    rw [iterate_listenersAttached]; rfl
  have hz683 : 683/160 ≤ (frameStep^[121] c1mid).camZoom := by
    rw [hcz]
    linarith
  have hesc := c1_escape_event (frameStep^[121] c1mid) hlist121 hEH121
  have hreenter := c1_escape_reenter (frameStep^[121] c1mid) hact121 hz683
  refine ⟨by rw [hsplit1]; exact hact121, by rw [hsplit1]; exact hEH121, ?_, ?_⟩
  · rw [run_append, hsplit1, hesc]
  · rw [run_append, hsplit1,
        show ([Ev.keyEscape, Ev.frame] : List Ev) = [Ev.keyEscape] ++ [Ev.frame] from rfl,
        run_append, hesc, run_frame_eq]
    exact hreenter

end Tachyonic
